import Mathlib

/-! Warships: the command handlers of `net/server.go`.

A shallow embedding of the RPC command handlers of the Warships game server
(`src/net/server.go`) and of the scheduler loop of `StartGameServer`.

The handlers are Go methods on `*Server` that mutate the game behind the
pointer `t.game` and return an `error`.  Here every handler is a function from
the game before the call and the command to the game after the call together
with an `Outcome`: the response written on success, the error returned, a Go
run-time panic (nil dereference, index out of range) or a process exit.

Pointers are embedded as positions.  A `*Team` is the index of the team in
`Game.Teams` (teams are only ever appended), a `*Player` is the index of its
team together with its index in that team's roster, and `player.Team` is the
first component of that position.

Go's `int` is taken to be 64 bits wide; arithmetic on it is embedded on `Int`,
with an explicit wrap-around where a result can leave the range.

Package `game` is not part of the sources at hand.  Its types are
reconstructed from the way `server.go` and `launcher.go` use them; its
functions carry a doc comment saying that they are modelled from the
specification.
-/

namespace Warships

/-! ## Data model (package `game`, as used by `server.go`) -/

/-- Orientation of a ship: `game.HORIZONTAL` or `game.VERTICAL`. -/
inductive Orientation
  | HORIZONTAL
  | VERTICAL
  deriving DecidableEq, Repr

/-- Zero-based grid coordinate, `game.Coordinate{x, y}`. -/
structure Coordinate where
  X : Nat
  Y : Nat
  deriving DecidableEq, Repr

/-- Parsed cell reference: the column letters and the row number. -/
structure Target where
  X : String
  Y : Nat
  deriving DecidableEq, Repr

/-- Result of a shot: `game.MISS`, `game.HIT`, `game.REPEAT_HIT`, `game.SINK`. -/
inductive ShotResult
  | MISS
  | HIT
  | REPEAT_HIT
  | SINK
  deriving DecidableEq, Repr

/-- A deployed ship: size, orientation, anchor and the damage state of each cell. -/
structure Ship where
  Size : Nat
  Orientation : Orientation
  Location : Coordinate
  Health : List Bool
  deriving DecidableEq, Repr

/-- A player: `Id`, `Username`, `Points` and `HitStreak` are the fields read and
written by the handlers.  The owning team is the roster the player is stored in. -/
structure Player where
  Id : String
  Username : String
  Points : Int
  HitStreak : Int
  deriving DecidableEq, Repr

/-- A team: `Name`, `Players`, `NumPlayers`, `Ships` and the Go `int`
`DeploymentPoints`. -/
structure Team where
  Name : String
  Players : List Player
  NumPlayers : Int
  Ships : List Ship
  DeploymentPoints : Int
  deriving DecidableEq, Repr

/-- The game aggregate, with the fields set by `nonInteractiveStartup`
(the creation time stamp is left out). `MaxPlayers`, `ShipLimit` and
`BoardSize` are `uint8` in the source. -/
structure Game where
  Live : Bool
  Port : Nat
  Password : String
  AdminPassword : String
  MaxPlayers : Nat
  ShipLimit : Nat
  BoardSize : Nat
  StartDeployPts : Int
  Teams : List Team
  deriving DecidableEq, Repr

/-- The argument of every command: the caller's player id and the command line
split on white space (`Fields[0]` is the command name). -/
structure ClientCommand where
  PlayerId : String
  Fields : List String
  deriving DecidableEq, Repr

/-- What a handler call ends in. -/
inductive Outcome
  | ok (response : String)
  | error (msg : String)
  | panic
  | exit (code : Nat)
  deriving DecidableEq, Repr

/-- Position of a player: index of the team, index in the team's roster. -/
abbrev PlayerRef := Nat × Nat

/-! ## Go library functions -/

/-- Largest Go `int` (64 bit). -/
def maxInt : Int := 2 ^ 63 - 1

/-- Two's complement wrap-around of a mathematical integer into Go's `int`. -/
def wrapInt (x : Int) : Int := (x + 2 ^ 63) % 2 ^ 64 - 2 ^ 63

/-- Value of a string of decimal digits. -/
def digitsValue (cs : List Char) : Nat :=
  cs.foldl (fun n c => n * 10 + (c.toNat - 48)) 0

/-- Outcome of scanning the digits of a number: the value, a syntax error or a
range error. -/
inductive Scan
  | value (n : Nat)
  | syntaxError
  | rangeError
  deriving DecidableEq, Repr

/-- Go's `strconv.ParseUint(s, 10, 64)` on the characters after the sign, with
`n` the value read so far: the characters are read from the left, a character
that is not a decimal digit is a syntax error, and a value that leaves 64 bits
is a range error reported at the digit where it happens. -/
def scanDigits : List Char → Nat → Scan
  | [], n => .value n
  | c :: cs, n =>
    if ¬ c.isDigit then .syntaxError
    else if n ≥ 1844674407370955162 then .rangeError
    else if n * 10 + (c.toNat - 48) > 2 ^ 64 - 1 then .rangeError
    else scanDigits cs (n * 10 + (c.toNat - 48))

/-- Go's `strconv.Atoi`: an optional sign followed by one or more decimal
digits.  The second component says whether `err != nil`; the value is `0` on a
syntax error and the nearest `int` on a range error. -/
def Atoi (s : String) : Int × Bool :=
  let cs := s.toList
  let neg := cs.head? = some '-'
  let ds := if cs.head? = some '-' ∨ cs.head? = some '+' then cs.tail else cs
  if ds.isEmpty then (0, true)
  else
    match scanDigits ds 0 with
    | .syntaxError => (0, true)
    | .rangeError => if neg then (-(2 ^ 63), true) else (2 ^ 63 - 1, true)
    | .value un =>
      if neg then
        if (un : Int) > 2 ^ 63 then (-(2 ^ 63), true) else (-(un : Int), false)
      else
        if (un : Int) ≥ 2 ^ 63 then (2 ^ 63 - 1, true) else ((un : Int), false)

/-! ## Package `game` -/

/-- Index of the first player of a roster carrying the given id. -/
def findInRoster : List Player → String → Option Nat
  | [], _ => none
  | p :: ps, id => if p.Id = id then some 0 else (findInRoster ps id).map (· + 1)

/-- Search of the teams from index `i` on for the player carrying the id. -/
def findInTeams : List Team → Nat → String → Option PlayerRef
  | [], _, _ => none
  | t :: ts, i, id =>
    match findInRoster t.Players id with
    | some j => some (i, j)
    | none => findInTeams ts (i + 1) id

/-- Modelled from the spec: `Game.GetPlayerById` of the absent package `game`
resolves the player by identifier; `none` is the nil pointer returned for an
unknown identifier. -/
def GetPlayerById (g : Game) (id : String) : Option PlayerRef :=
  findInTeams g.Teams 0 id

/-- The cells of a ship of the given size anchored at `c`: row-wise for a
horizontal ship, column-wise for a vertical one. -/
def shipCells (size : Nat) (o : Orientation) (c : Coordinate) : List Coordinate :=
  (List.range size).map fun i =>
    match o with
    | .HORIZONTAL => { X := c.X + i, Y := c.Y }
    | .VERTICAL => { X := c.X, Y := c.Y + i }

/-- Modelled from the spec: `Team.NewShip` of the absent package `game`.
Placement is accepted only if the size is within `[1, shipLimit]` and every
resulting cell lies within `[0, boardSize)` on both axes; on success the ship
is appended to the team's ship list.  The points check and the debit are done
by `Deploy`. -/
def NewShip (shipLimit boardSize : Nat) (team : Team) (size : Nat) (o : Orientation)
    (c : Coordinate) : Except String Team :=
  if size < 1 ∨ size > shipLimit then
    .error "ship size out of range"
  else if (shipCells size o c).all (fun p => p.X < boardSize ∧ p.Y < boardSize) then
    .ok { team with
      Ships := team.Ships ++
        [{ Size := size, Orientation := o, Location := c, Health := List.replicate size false }] }
  else
    .error "ship does not fit on the board"

/-- Letters of the column labels. -/
def isColumnLetter (c : Char) : Bool := 'A' ≤ c ∧ c ≤ 'Z'

/-- Modelled from the spec: `game.StringToTarget` of the absent package `game`
splits a leading alphabetic run from a trailing numeric run and fails with a
parse error if either run is empty or the rest is not a non-negative number. -/
def StringToTarget (s : String) : Except String Target :=
  let cs := s.toList
  let letters := cs.takeWhile isColumnLetter
  let digits := cs.dropWhile isColumnLetter
  if letters.isEmpty ∨ digits.isEmpty ∨ ¬ digits.all Char.isDigit then
    .error "invalid target"
  else
    .ok { X := String.mk letters, Y := digitsValue digits }

/-- Value of a base-26 column label: `A` is 0, `Z` is 25, `AA` is 26. -/
def fromBase26 (cs : List Char) : Nat :=
  cs.foldl (fun n c => n * 26 + (c.toNat - 64)) 0 - 1

/-- Modelled from the spec: `Target.ToCoordinate` of the absent package `game`
maps the column label back to a zero-based x and the row directly to y. -/
def ToCoordinate (t : Target) : Coordinate :=
  { X := fromBase26 t.X.toList, Y := t.Y }

/-- The team and the player a position points at. -/
def playerAt (g : Game) (ref : PlayerRef) : Option (Team × Player) :=
  match g.Teams[ref.1]? with
  | none => none
  | some team =>
    match team.Players[ref.2]? with
    | none => none
    | some p => some (team, p)

/-- The functions of package `game` whose results the specification leaves
open (the outcome of a shot in full, the glyphs of the radar, the generated
name of a new team). The handlers are embedded over an arbitrary choice of
them. `FireShot` receives the firing player and the target team and returns
both as the call leaves them; `GetRadar` receives the game, the index of the
viewing team and of the viewed team and returns the grid as a function of
`x` and `y`. -/
structure GamePkg where
  FireShot : Player → Team → Target → Player × Team × ShotResult
  GetRadar : Game → Nat → Nat → Nat → Nat → String
  teamLabel : Nat → String

/-- Modelled from the spec: `Game.NewTeam` of the absent package `game`
creates a team with zero players, zero ships and zero deployment points under
a generated name and appends it to the team list of the game. The new team
has index `g.Teams.length`. -/
def NewTeam (pkg : GamePkg) (g : Game) : Game :=
  { g with
    Teams := g.Teams ++
      [{ Name := pkg.teamLabel g.Teams.length, Players := [], NumPlayers := 0, Ships := [],
         DeploymentPoints := 0 }] }

/-- Replace the team at index `i` by its image under `f`. -/
def modifyTeam (g : Game) (i : Nat) (f : Team → Team) : Game :=
  { g with Teams := g.Teams.modify f i }

/-- Modelled from the spec: `Team.TopPlayer` of the absent package `game`
returns the team leader, the player with the highest score, ties broken by
earliest join: the first player of the roster whose points no player of the
roster exceeds. `none` is the nil pointer of an empty roster. -/
def TopPlayer (team : Team) : Option Nat :=
  team.Players.findIdx? fun p => team.Players.all fun q => q.Points ≤ p.Points

/-- Modelled from the spec: `Game.UniqueTeamName` of the absent package `game`
says whether no team of the game carries the name (case-sensitive). -/
def UniqueTeamName (g : Game) (name : String) : Bool :=
  g.Teams.all fun t => t.Name ≠ name

/-- Modelled from the spec: `game.SwitchTeam` of the absent package `game`
moves the player from the roster of its team to the end of the roster of the
team with index `newTeam`; the player counts follow. The result is the game
and the new position of the player. -/
def SwitchTeam (g : Game) (ref : PlayerRef) (newTeam : Nat) : Game × PlayerRef :=
  match playerAt g ref, g.Teams[newTeam]? with
  | some (_, p), some nt =>
    let g1 := modifyTeam g ref.1 fun t =>
      { t with Players := t.Players.eraseIdx ref.2, NumPlayers := t.NumPlayers - 1 }
    let g2 := modifyTeam g1 newTeam fun t =>
      { t with Players := t.Players ++ [p], NumPlayers := t.NumPlayers + 1 }
    (g2, (newTeam, nt.Players.length))
  | _, _ => (g, ref)

/-- Digits of the base-26 label of `n`, most significant first. -/
def toBase26 : Nat → Nat → List Char
  | 0, _ => []
  | fuel + 1, n =>
    if n < 26 then [Char.ofNat (65 + n)]
    else toBase26 fuel (n / 26 - 1) ++ [Char.ofNat (65 + n % 26)]

/-- Modelled from the spec: `base26.ConvertToBase26` of the absent package
`base26` encodes a column index as a label over `A`..`Z` with multi-letter
carry: 0 is `A`, 25 is `Z`, 26 is `AA`. -/
def ConvertToBase26 (n : Nat) : String :=
  String.mk (toBase26 (n + 1) n)

/-- Go's `%-Nv` on a string: left-justified in width `w`. -/
def padRight (w : Nat) (s : String) : String :=
  s ++ String.mk (List.replicate (w - s.length) ' ')

/-- Go's `%Nv` on a string: right-justified in width `w`. -/
def padLeft (w : Nat) (s : String) : String :=
  String.mk (List.replicate (w - s.length) ' ') ++ s

/-! ## Handlers of `server.go` -/

/-- Error text of `Deploy` for a missing argument. -/
def deployUsage : String :=
  "not enough arguments to perform target command: deploy <location> <size> <orientation( H|V )>"

/-- Error text of `Deploy` for a bad ship size. -/
def deploySizeInvalid : String :=
  "ship size selection invalid: deploy <location> <size> <orientation( H|V )>"

/-- Error text of `Deploy` for a bad orientation. -/
def deployOrientationInvalid : String :=
  "ship orientation selection invalid: deploy <location> <size> <orientation( H|V )>"

/-- The orientation argument of `Deploy`: `"H"` or `"V"`. -/
def parseOrientation (s : String) : Option Orientation :=
  if s = "H" then some .HORIZONTAL
  else if s = "V" then some .VERTICAL
  else none

/-- `Server.Deploy` (server.go, lines 412-465). The debit is reached only with
`1 ≤ size ≤ DeploymentPoints`, so the subtraction stays within Go's `int`. -/
def Server.Deploy (g : Game) (args : ClientCommand) : Game × Outcome :=
  let player := GetPlayerById g args.PlayerId
  match args.Fields with
  | _ :: f1 :: f2 :: f3 :: _ =>
    match StringToTarget f1 with
    | .error e => (g, .error e)
    | .ok location =>
      let size := (Atoi f2).1
      if (Atoi f2).2 then (g, .error deploySizeInvalid)
      else if size < 1 ∨ size > 8 then (g, .error deploySizeInvalid)
      else
        match parseOrientation f3 with
        | none => (g, .error deployOrientationInvalid)
        | some orientation =>
          match player with
          | none => (g, .panic)
          | some ref =>
            match g.Teams[ref.1]? with
            | none => (g, .panic)
            | some team =>
              if team.DeploymentPoints ≥ size then
                match NewShip g.ShipLimit g.BoardSize team (size.toNat % 256) orientation
                    (ToCoordinate location) with
                | .error e => (g, .error e)
                | .ok team' =>
                  let pts := team'.DeploymentPoints - size
                  ({ g with Teams := g.Teams.set ref.1 { team' with DeploymentPoints := pts } },
                    .ok ("Ship deployed - " ++ toString pts ++ " deployment points remaining"))
              else (g, .error "not enough deployment points")
  | _ => (g, .error deployUsage)

/-- `PrintMap` (server.go, lines 184-202). `boardSize` is a `uint8`, so the
bound `int(boardSize - 1)` of the header loop is computed modulo 256. -/
def PrintMap (boardSize : Nat) (icon : Nat → Nat → String) : String :=
  let output := "    "
  let output := (List.range ((boardSize + 255) % 256 + 1)).foldl
    (fun out x => out ++ padRight 2 (ConvertToBase26 x)) output
  let output := output ++ "\n"
  (List.range boardSize).foldl
    (fun out y =>
      let out := out ++ (padLeft 3 (toString y) ++ " ")
      let out := (List.range boardSize).foldl (fun o x => o ++ icon x y) out
      out ++ "\n")
    output

/-- `Server.Radar` (server.go, lines 226-263). -/
def Server.Radar (pkg : GamePkg) (g : Game) (args : ClientCommand) : Game × Outcome :=
  match args.Fields with
  | _ :: f1 :: _ =>
    let teamNum := (Atoi f1).1
    if (Atoi f1).2 then (g, .error "team selection invalid")
    else if teamNum < 1 ∨ teamNum > g.Teams.length then
      (g, .error "team selection out of range")
    else
      match g.Teams[(teamNum - 1).toNat]? with
      | none => (g, .panic)
      | some _ =>
        match GetPlayerById g args.PlayerId with
        | none => (g, .panic)
        | some ref =>
          if (teamNum - 1).toNat = ref.1 then (g, .error "you cannot target your own team")
          else (g, .ok (PrintMap g.BoardSize (pkg.GetRadar g ref.1 (teamNum - 1).toNat)))
  | _ => (g, .error "must target radar at a specific team: radar <team#>")

/-- Error text of `Target` for a missing argument. -/
def targetUsage : String :=
  "not enough arguments to perform target command: target <team#> <target_coordinate>"

/-- Error text of `Target` for a team number out of range. -/
def targetInvalid : String :=
  "not a valid target number. Run \x27teams\x27 to see a list of teams and their team#"

/-- Response of `Target` for a shot result; `streak` is the hit streak of the
player after the shot. -/
def shotMessage (r : ShotResult) (streak : Int) : String :=
  match r with
  | .HIT => "Shot confirmed HIT!\n" ++ (toString streak ++ " hit streak\n")
  | .REPEAT_HIT => "Shot confirmed HIT but no further damage inflicted!\n"
  | .MISS => "Shot confirmed MISS!\n"
  | .SINK => "Shot confirmed HIT... enemy ship SUNK!\n"

/-- `Server.Target` (server.go, lines 343-410). The second component lists the
calls of `FireShot` made by the handler, each by the index of the team fired
at. -/
def Server.Target (pkg : GamePkg) (g : Game) (args : ClientCommand) : (Game × Outcome) × List Nat :=
  let player := GetPlayerById g args.PlayerId
  match args.Fields with
  | _ :: f1 :: f2 :: _ =>
    -- the error of the conversion is overwritten before it is looked at
    let teamNum := (Atoi f1).1
    if teamNum > g.Teams.length ∨ teamNum < 1 then ((g, .error targetInvalid), [])
    else
      match player with
      | none => ((g, .panic), [])
      | some ref =>
        match playerAt g ref with
        | none => ((g, .panic), [])
        | some (ownTeam, p) =>
          if ownTeam.Ships.length = 0 then
            ((g, .error "you must have ships deployed to fire shots"), [])
          else
            match g.Teams[(teamNum - 1).toNat]? with
            | none => ((g, .panic), [])
            | some team =>
              if (teamNum - 1).toNat = ref.1 then
                ((g, .error "you cannot target your own team"), [])
              else
                match StringToTarget f2 with
                | .error e => ((g, .error e), [])
                | .ok target =>
                  let shot := pkg.FireShot p team target
                  let g1 := modifyTeam g (teamNum - 1).toNat fun _ => shot.2.1
                  let g2 := modifyTeam g1 ref.1 fun t =>
                    { t with Players := t.Players.set ref.2 shot.1 }
                  ((g2, .ok (shotMessage shot.2.2 shot.1.HitStreak)), [(teamNum - 1).toNat])
  | _ => ((g, .error targetUsage), [])

/-- `Server.Rename` (server.go, lines 493-523). -/
def Server.Rename (g : Game) (args : ClientCommand) : Game × Outcome :=
  match GetPlayerById g args.PlayerId with
  | none => (g, .panic)
  | some ref =>
    match g.Teams[ref.1]? with
    | none => (g, .panic)
    | some team =>
      if TopPlayer team ≠ some ref.2 then
        (g, .error
          "you must be team leader to do this (player on your team with them most points)")
      else
        match args.Fields with
        | _ :: newName :: _ =>
          let oldName := team.Name
          if UniqueTeamName g newName then
            (modifyTeam g ref.1 fun t => { t with Name := newName },
              .ok ("Team " ++ oldName ++ " renamed to " ++ newName))
          else (g, .error "team name already taken")
        | _ => (g, .error "not enough arguments to perform target command: rename <new_name>")

/-- `Server.Mutiny` (server.go, lines 525-567). Go's `/` on `int` truncates
towards zero. -/
def Server.Mutiny (pkg : GamePkg) (g : Game) (args : ClientCommand) : Game × Outcome :=
  let player := GetPlayerById g args.PlayerId
  match args.Fields with
  | _ :: newName :: _ =>
    match player with
    | none => (g, .panic)
    | some ref =>
      match g.Teams[ref.1]? with
      | none => (g, .panic)
      | some oldTeam =>
        let newTeam := g.Teams.length
        let g1 := NewTeam pkg g
        -- Split the deployment points
        let g2 := modifyTeam g1 newTeam fun t =>
          { t with DeploymentPoints := oldTeam.DeploymentPoints.tdiv 2 }
        let g3 := modifyTeam g2 ref.1 fun t =>
          { t with DeploymentPoints := t.DeploymentPoints.tdiv 2 }
        let g4 := modifyTeam g3 newTeam fun t => { t with Name := newName }
        let moved := SwitchTeam g4 ref newTeam
        let g5 := modifyTeam moved.1 moved.2.1 fun t =>
          { t with Players := t.Players.modify (fun p => { p with Points := 10 }) moved.2.2 }
        (g5, .ok ("Treachery! You have stolen " ++ toString (oldTeam.DeploymentPoints.tdiv 2)
          ++ " deployment points to start your own team: " ++ newName ++ "\n"
          ++ "By starting your own team your points have been reduced to 10"))
  | _ => (g, .error "not enough arguments to perform target command: mutiny <new_name>")

/-- One line of the player list, `fmt.Sprintf("%8v %-20v\n", points, username)`. -/
def playerLine (points username : String) : String :=
  padLeft 8 points ++ " " ++ padRight 20 username ++ "\n"

/-- `Server.Players` (server.go, lines 294-341). The comparison
`team == playerTeam` of two team pointers is the comparison of their indices. -/
def Server.Players (g : Game) (args : ClientCommand) : Game × Outcome :=
  let output := ""
  match GetPlayerById g args.PlayerId with
  | none => (g, .panic)
  | some ref =>
    let playerTeam := ref.1
    match args.Fields with
    | _ :: f1 :: _ =>
      -- a team number is specified
      let teamNum := (Atoi f1).1
      if (Atoi f1).2 then (g, .error "Team selection invalid")
      else if teamNum < 1 ∨ teamNum > g.Teams.length then
        (g, .error "Team selection out of range")
      else
        match g.Teams[(teamNum - 1).toNat]? with
        | none => (g, .panic)
        | some team =>
          let output := output ++
            ("\n" ++ team.Name ++ " [ " ++ toString team.NumPlayers ++ " player(s) ]\n")
          let output := output ++ playerLine "Points" "Username"
          let output := team.Players.foldl
            (fun out player =>
              if (teamNum - 1).toNat = playerTeam then
                out ++ playerLine (toString player.Points) player.Username
              else out ++ playerLine "?" player.Username)
            output
          (g, .ok output)
    | _ =>
      let output := g.Teams.enum.foldl
        (fun out (nt : Nat × Team) =>
          let out := out ++ ("Team " ++ toString (nt.1 + 1) ++ ": " ++ nt.2.Name ++ "\n")
          nt.2.Players.foldl
            (fun o player =>
              if nt.1 = playerTeam then o ++ playerLine (toString player.Points) player.Username
              else o ++ playerLine "?" player.Username)
            out)
        output
      (g, .ok output)

/-- One round of the scheduler loop of `StartGameServer` (server.go, lines
114-121): `team.DeploymentPoints++` for every team, on a Go `int`. -/
def tick (g : Game) : Game :=
  { g with
    Teams := g.Teams.map fun t => { t with DeploymentPoints := wrapInt (t.DeploymentPoints + 1) } }

/-- `Server.Shutdown` (server.go, lines 571-582): the call of `os.Exit(0)`
follows the password comparison and is not guarded by it. -/
def Server.Shutdown (g : Game) (args : ClientCommand) : Game × Outcome :=
  match args.Fields with
  | _ :: f1 :: _ =>
    if f1 = g.AdminPassword then
      -- `*response = "Shutting down server"`, then `os.Exit(0)`
      (g, .exit 0)
    else
      -- no response is set, `os.Exit(0)` is reached all the same
      (g, .exit 0)
  | _ => (g, .error "Must follow admin command with admin password")

/-! ## Closed forms and transition systems -/

/-- The teams `Mutiny` leaves behind, in closed form. -/
def teamsAfterMutiny (g : Game) (ref : PlayerRef) (oldTeam : Team) (p : Player)
    (newName : String) : List Team :=
  g.Teams.set ref.1
      { oldTeam with
        DeploymentPoints := oldTeam.DeploymentPoints.tdiv 2
        Players := oldTeam.Players.eraseIdx ref.2
        NumPlayers := oldTeam.NumPlayers - 1 } ++
    [{ Name := newName, Players := [{ p with Points := 10 }], NumPlayers := 0 + 1, Ships := [],
       DeploymentPoints := oldTeam.DeploymentPoints.tdiv 2 }]

/-- One step of the game: a deploy command, a mutiny command or a round of
the scheduler loop. -/
inductive Step (pkg : GamePkg) : Game → Game → Prop
  | deploy (g : Game) (args : ClientCommand) : Step pkg g (Server.Deploy g args).1
  | mutiny (g : Game) (args : ClientCommand) : Step pkg g (Server.Mutiny pkg g args).1
  | tick (g : Game) : Step pkg g (tick g)

/-- The steps above, a round of the scheduler loop being taken only while
every balance is below the largest `int`. -/
inductive GuardedStep (pkg : GamePkg) : Game → Game → Prop
  | deploy (g : Game) (args : ClientCommand) : GuardedStep pkg g (Server.Deploy g args).1
  | mutiny (g : Game) (args : ClientCommand) : GuardedStep pkg g (Server.Mutiny pkg g args).1
  | tick (g : Game) (h : ∀ t ∈ g.Teams, t.DeploymentPoints < maxInt) :
      GuardedStep pkg g (tick g)

/-- A player with his points blanked. -/
def hidePoints (p : Player) : Player := { p with Points := 0 }

/-- A team with the points of its players blanked. -/
def hideTeamPoints (t : Team) : Team := { t with Players := t.Players.map hidePoints }

/-- The teams from index `i` on, the points of the players blanked on every
team but the one with index `own`. -/
def hideFrom (own : Nat) : Nat → List Team → List Team
  | _, [] => []
  | i, t :: ts => (if i = own then t else hideTeamPoints t) :: hideFrom own (i + 1) ts

/-- The game with the points of the players blanked on every team but the one
with index `own`. Two games differ only in the points of players on teams
other than `own` when they agree after this. -/
def hideOtherPoints (own : Nat) (g : Game) : Game :=
  { g with Teams := hideFrom own 0 g.Teams }

/-! ## Example states -/

/-- A player without points. -/
def ann : Player := { Id := "p1", Username := "ann", Points := 0, HitStreak := 0 }

/-- A player with three points. -/
def bob : Player := { Id := "p2", Username := "bob", Points := 3, HitStreak := 0 }

/-- A team of two players holding 11 deployment points. -/
def teamRed : Team :=
  { Name := "Red", Players := [ann, bob], NumPlayers := 2, Ships := [], DeploymentPoints := 11 }

/-- A team of nobody with one ship and no points. -/
def teamBlue : Team :=
  { Name := "Blue", Players := [], NumPlayers := 0,
    Ships := [{ Size := 1, Orientation := .HORIZONTAL, Location := { X := 0, Y := 0 },
                Health := [false] }],
    DeploymentPoints := 0 }

/-- A game with the settings `launcher.go` uses by default (ship limit 16,
board size 16) and the two teams above. -/
def demoGame : Game :=
  { Live := true, Port := 51832, Password := "", AdminPassword := "secret", MaxPlayers := 32,
    ShipLimit := 16, BoardSize := 16, StartDeployPts := 10, Teams := [teamRed, teamBlue] }

/-- The game above with team Red holding exactly three points. -/
def threePointGame : Game :=
  { demoGame with Teams := [{ teamRed with DeploymentPoints := 3 }, teamBlue] }

/-- The demo game after team Red has deployed a ship of size two. -/
def armedGame : Game :=
  { demoGame with
    Teams := [{ teamRed with
                Ships := [{ Size := 2, Orientation := .VERTICAL, Location := { X := 0, Y := 1 },
                            Health := [false, false] }] },
              teamBlue] }

/-- The demo game with team Red holding the largest `int` as its balance. -/
def richGame : Game :=
  { demoGame with Teams := [{ teamRed with DeploymentPoints := 9223372036854775807 }, teamBlue] }

/-- A player of team Blue with seven points. -/
def carl : Player := { Id := "p3", Username := "carl", Points := 7, HitStreak := 2 }

/-- The demo game with `carl` on team Blue. -/
def rivalGame : Game :=
  { demoGame with Teams := [teamRed, { teamBlue with Players := [carl], NumPlayers := 1 }] }

/-- The game above with 99 points for `carl`. -/
def rivalGameRich : Game :=
  { demoGame with
    Teams := [teamRed, { teamBlue with Players := [{ carl with Points := 99 }], NumPlayers := 1 }] }

/-- A package `game` whose shots all miss and whose radar shows water. -/
def demoPkg : GamePkg :=
  { FireShot := fun p t _ => (p, t, .MISS)
    GetRadar := fun _ _ _ _ _ => "~"
    teamLabel := fun n => "Team " ++ toString (n + 1) }

/-! ## Lemmas on the embedding -/

theorem findInRoster_lt (ps : List Player) (id : String) (j : Nat)
    (h : findInRoster ps id = some j) : j < ps.length := by
  induction ps generalizing j with
  | nil => simp [findInRoster] at h
  | cons p ps ih =>
    simp only [findInRoster] at h
    split at h
    · simp at h; subst h; simp
    · cases hr : findInRoster ps id with
      | none => simp [hr] at h
      | some k =>
        simp [hr] at h
        subst h
        have := ih k hr
        simp only [List.length_cons]
        omega

theorem findInTeams_some (ts : List Team) (i : Nat) (id : String) (ref : PlayerRef)
    (h : findInTeams ts i id = some ref) :
    i ≤ ref.1 ∧ ∃ team, ts[ref.1 - i]? = some team ∧ ref.2 < team.Players.length := by
  induction ts generalizing i with
  | nil => simp [findInTeams] at h
  | cons t ts ih =>
    simp only [findInTeams] at h
    cases hr : findInRoster t.Players id with
    | some j =>
      simp only [hr, Option.some.injEq] at h
      subst h
      exact ⟨le_refl _, t, by simp, findInRoster_lt _ _ _ hr⟩
    | none =>
      simp only [hr] at h
      obtain ⟨hle, team, hteam, hlt⟩ := ih (i + 1) h
      refine ⟨by omega, team, ?_, hlt⟩
      have : ref.1 - i = (ref.1 - (i + 1)) + 1 := by omega
      rw [this]
      simpa using hteam

/-- A player resolved by `GetPlayerById` sits in a team of the game. -/
theorem GetPlayerById_team (g : Game) (id : String) (ref : PlayerRef)
    (h : GetPlayerById g id = some ref) :
    ∃ team, g.Teams[ref.1]? = some team ∧ ref.2 < team.Players.length := by
  obtain ⟨_, team, hteam, hlt⟩ := findInTeams_some g.Teams 0 id ref h
  exact ⟨team, by simpa using hteam, hlt⟩

/-- A player resolved by `GetPlayerById` is found at its position. -/
theorem GetPlayerById_playerAt (g : Game) (id : String) (ref : PlayerRef)
    (h : GetPlayerById g id = some ref) :
    ∃ team p, g.Teams[ref.1]? = some team ∧ playerAt g ref = some (team, p) := by
  obtain ⟨team, hteam, hlt⟩ := GetPlayerById_team g id ref h
  refine ⟨team, team.Players[ref.2], hteam, ?_⟩
  simp [playerAt, hteam, List.getElem?_eq_getElem hlt]

/-- `NewShip` changes nothing but the ship list. -/
theorem NewShip_ok (shipLimit boardSize : Nat) (team team' : Team) (size : Nat)
    (o : Orientation) (c : Coordinate)
    (h : NewShip shipLimit boardSize team size o c = .ok team') :
    team'.DeploymentPoints = team.DeploymentPoints ∧ team'.Name = team.Name ∧
      team'.Players = team.Players := by
  unfold NewShip at h
  split at h
  · cases h
  · split at h
    · cases h; exact ⟨rfl, rfl, rfl⟩
    · cases h

theorem modify_append_last {α : Type} (f : α → α) (l : List α) (a : α) :
    (l ++ [a]).modify f l.length = l ++ [f a] := by
  induction l with
  | nil => rfl
  | cons x xs ih => simp [ih]

theorem modify_append_len {α : Type} (f : α → α) (l : List α) (a : α) (n : Nat)
    (h : n = l.length) : (l ++ [a]).modify f n = l ++ [f a] := by
  subst h; exact modify_append_last f l a

theorem modify_append_lt {α : Type} (f : α → α) (l : List α) (a : α) (i : Nat)
    (h : i < l.length) : (l ++ [a]).modify f i = l.modify f i ++ [a] := by
  induction l generalizing i with
  | nil => simp at h
  | cons x xs ih =>
    cases i with
    | zero => simp
    | succ i => simp at h; simp [ih i h]

theorem modify_eq_set_of_getElem? {α : Type} (f : α → α) (l : List α) (i : Nat) (t : α)
    (h : l[i]? = some t) : l.modify f i = l.set i (f t) := by
  induction l generalizing i with
  | nil => simp at h
  | cons x xs ih =>
    cases i with
    | zero => simp at h; subst h; simp
    | succ i => simp at h; simp [ih i h]

theorem modifyTeam_Teams (g : Game) (i : Nat) (f : Team → Team) :
    (modifyTeam g i f).Teams = g.Teams.modify f i := rfl

theorem SwitchTeam_eq (g : Game) (ref : PlayerRef) (newTeam : Nat) (ot nt : Team) (p : Player)
    (hot : g.Teams[ref.1]? = some ot) (hp : ot.Players[ref.2]? = some p)
    (hnt : g.Teams[newTeam]? = some nt) :
    SwitchTeam g ref newTeam =
      (modifyTeam
        (modifyTeam g ref.1 fun t =>
          { t with Players := t.Players.eraseIdx ref.2, NumPlayers := t.NumPlayers - 1 })
        newTeam (fun t => { t with Players := t.Players ++ [p], NumPlayers := t.NumPlayers + 1 }),
        (newTeam, nt.Players.length)) := by
  simp [SwitchTeam, playerAt, hot, hp, hnt]

theorem mutiny_core (pkg : GamePkg) (g : Game) (ref : PlayerRef) (oldTeam : Team) (p : Player)
    (newName : String)
    (hteam : g.Teams[ref.1]? = some oldTeam)
    (hp : oldTeam.Players[ref.2]? = some p) :
    let g4 := modifyTeam
      (modifyTeam
        (modifyTeam (NewTeam pkg g) g.Teams.length fun t =>
          { t with DeploymentPoints := oldTeam.DeploymentPoints.tdiv 2 })
        ref.1 fun t => { t with DeploymentPoints := t.DeploymentPoints.tdiv 2 })
      g.Teams.length fun t => { t with Name := newName }
    let moved := SwitchTeam g4 ref g.Teams.length
    (modifyTeam moved.1 moved.2.1 fun t =>
        { t with Players := t.Players.modify (fun p => { p with Points := 10 }) moved.2.2 }).Teams
      = teamsAfterMutiny g ref oldTeam p newName := by
  intro g4 moved
  have hlt : ref.1 < g.Teams.length := by
    by_contra hcon
    rw [List.getElem?_eq_none (by omega)] at hteam
    cases hteam
  let ot1 : Team := { oldTeam with DeploymentPoints := oldTeam.DeploymentPoints.tdiv 2 }
  let nt1 : Team :=
    ⟨newName, [], 0, [], oldTeam.DeploymentPoints.tdiv 2⟩
  have hset : (g.Teams.set ref.1 ot1)[ref.1]? = some ot1 := by
    simp [List.getElem?_set, hlt]
  have e4 : g4.Teams = g.Teams.set ref.1 ot1 ++ [nt1] := by
    simp only [g4, modifyTeam_Teams, NewTeam]
    rw [modify_append_last, modify_append_lt _ _ _ _ hlt,
      modify_eq_set_of_getElem? _ _ _ _ hteam, modify_append_len _ _ _ _ (by simp)]
  have hot4 : g4.Teams[ref.1]? = some ot1 := by
    rw [e4, List.getElem?_append_left (by simpa using hlt)]
    exact hset
  have hnt4 : g4.Teams[g.Teams.length]? = some nt1 := by
    rw [e4, List.getElem?_append_right (by simp)]
    simp
  have hmoved := SwitchTeam_eq g4 ref g.Teams.length ot1 nt1 p hot4 hp hnt4
  simp only [moved, hmoved, modifyTeam_Teams, e4, teamsAfterMutiny]
  rw [modify_append_lt _ _ _ _ (by simpa using hlt),
    modify_eq_set_of_getElem? _ _ _ _ hset, List.set_set,
    modify_append_len _ _ _ _ (by simp), modify_append_len _ _ _ _ (by simp)]
  simp [ot1, nt1]

theorem Server.Mutiny_Teams (pkg : GamePkg) (g : Game) (args : ClientCommand)
    (f0 newName : String) (rest : List String) (ref : PlayerRef) (oldTeam : Team) (p : Player)
    (hfields : args.Fields = f0 :: newName :: rest)
    (hplayer : GetPlayerById g args.PlayerId = some ref)
    (hteam : g.Teams[ref.1]? = some oldTeam)
    (hp : oldTeam.Players[ref.2]? = some p) :
    (Server.Mutiny pkg g args).1.Teams = teamsAfterMutiny g ref oldTeam p newName ∧
    ∃ resp, (Server.Mutiny pkg g args).2 = .ok resp := by
  simp only [Server.Mutiny, hfields, hplayer, hteam]
  exact ⟨mutiny_core pkg g ref oldTeam p newName hteam hp, _, rfl⟩

theorem Server.Deploy_ok_or_same (g : Game) (args : ClientCommand) :
    (∃ g' resp, Server.Deploy g args = (g', .ok resp)) ∨ (Server.Deploy g args).1 = g := by
  simp only [Server.Deploy]
  repeat' split
  all_goals first | exact Or.inr rfl | exact Or.inl ⟨_, _, rfl⟩

theorem Server.Target_ok_or_same (pkg : GamePkg) (g : Game) (args : ClientCommand) :
    (∃ g' resp, (Server.Target pkg g args).1 = (g', .ok resp)) ∨
      (Server.Target pkg g args).1.1 = g := by
  simp only [Server.Target]
  repeat' split
  all_goals first | exact Or.inr rfl | exact Or.inl ⟨_, _, rfl⟩

theorem Server.Rename_ok_or_same (g : Game) (args : ClientCommand) :
    (∃ g' resp, Server.Rename g args = (g', .ok resp)) ∨ (Server.Rename g args).1 = g := by
  simp only [Server.Rename]
  repeat' split
  all_goals first | exact Or.inr rfl | exact Or.inl ⟨_, _, rfl⟩

theorem Server.Mutiny_ok_or_same (pkg : GamePkg) (g : Game) (args : ClientCommand) :
    (∃ g' resp, Server.Mutiny pkg g args = (g', .ok resp)) ∨
      (Server.Mutiny pkg g args).1 = g := by
  simp only [Server.Mutiny]
  repeat' split
  all_goals first | exact Or.inr rfl | exact Or.inl ⟨_, _, rfl⟩

theorem Atoi_err_value (s : String) (h : (Atoi s).2 = true) :
    (Atoi s).1 = 0 ∨ (Atoi s).1 = -(2 ^ 63) ∨ (Atoi s).1 = 2 ^ 63 - 1 := by
  unfold Atoi at h ⊢
  simp only at h ⊢
  generalize scanDigits _ 0 = r at h ⊢
  cases r <;> split_ifs at h ⊢ <;> simp_all <;> split_ifs at h ⊢ <;> simp_all

theorem Server.Target_cases (pkg : GamePkg) (g : Game) (args : ClientCommand)
    (f0 f1 f2 : String) (rest : List String) (ref : PlayerRef) (ownTeam : Team)
    (hfields : args.Fields = f0 :: f1 :: f2 :: rest)
    (hplayer : GetPlayerById g args.PlayerId = some ref)
    (hown : g.Teams[ref.1]? = some ownTeam) :
    ((∃ msg, Server.Target pkg g args = ((g, .error msg), [])) ∧
      ((Atoi f1).1 < 1 ∨ (Atoi f1).1 > g.Teams.length ∨ ownTeam.Ships = [] ∨
        ((Atoi f1).1 - 1).toNat = ref.1 ∨ ∃ e, StringToTarget f2 = .error e)) ∨
    ((1 ≤ (Atoi f1).1 ∧ (Atoi f1).1 ≤ g.Teams.length) ∧ ownTeam.Ships ≠ [] ∧
      ((Atoi f1).1 - 1).toNat ≠ ref.1 ∧
      ∃ t team p, StringToTarget f2 = .ok t ∧
        g.Teams[((Atoi f1).1 - 1).toNat]? = some team ∧
        playerAt g ref = some (ownTeam, p) ∧
        Server.Target pkg g args =
          (({ g with
              Teams := (g.Teams.set ((Atoi f1).1 - 1).toNat (pkg.FireShot p team t).2.1).set ref.1
                { ownTeam with Players := ownTeam.Players.set ref.2 (pkg.FireShot p team t).1 } },
            .ok (shotMessage (pkg.FireShot p team t).2.2 (pkg.FireShot p team t).1.HitStreak)),
            [((Atoi f1).1 - 1).toNat])) := by
  obtain ⟨team, p, hteam', hat⟩ := GetPlayerById_playerAt g args.PlayerId ref hplayer
  rw [hown] at hteam'
  cases hteam'
  simp only [Server.Target, hfields, hplayer, hat]
  by_cases hr : (Atoi f1).1 > g.Teams.length ∨ (Atoi f1).1 < 1
  · rw [if_pos hr]
    exact Or.inl ⟨⟨_, rfl⟩, by omega⟩
  · rw [if_neg hr]
    by_cases hs : ownTeam.Ships.length = 0
    · rw [if_pos hs]
      exact Or.inl ⟨⟨_, rfl⟩, Or.inr (Or.inr (Or.inl (List.length_eq_zero.mp hs)))⟩
    · rw [if_neg hs]
      have hidx : ((Atoi f1).1 - 1).toNat < g.Teams.length := by omega
      rw [List.getElem?_eq_getElem hidx]
      simp only
      by_cases ho : ((Atoi f1).1 - 1).toNat = ref.1
      · rw [if_pos ho]
        exact Or.inl ⟨⟨_, rfl⟩, Or.inr (Or.inr (Or.inr (Or.inl ho)))⟩
      · rw [if_neg ho]
        cases ht : StringToTarget f2 with
        | error e =>
          exact Or.inl ⟨⟨_, rfl⟩, Or.inr (Or.inr (Or.inr (Or.inr ⟨e, rfl⟩)))⟩
        | ok t =>
          have hs' : ownTeam.Ships ≠ [] := by
            intro hnil
            exact hs (by simp [hnil])
          have hget : g.Teams[((Atoi f1).1 - 1).toNat]?
              = some g.Teams[((Atoi f1).1 - 1).toNat] := List.getElem?_eq_getElem hidx
          have hown' : (g.Teams.set ((Atoi f1).1 - 1).toNat
              (pkg.FireShot p g.Teams[((Atoi f1).1 - 1).toNat] t).2.1)[ref.1]? = some ownTeam := by
            rw [List.getElem?_set_ne ho, hown]
          refine Or.inr ⟨by omega, hs', ho, t, _, p, rfl, rfl, rfl, ?_⟩
          simp only [modifyTeam, modify_eq_set_of_getElem? _ _ _ _ hget,
            modify_eq_set_of_getElem? _ _ _ _ hown']

theorem Server.Deploy_nonneg (g : Game) (args : ClientCommand)
    (h : ∀ t ∈ g.Teams, 0 ≤ t.DeploymentPoints) :
    ∀ t ∈ (Server.Deploy g args).1.Teams, 0 ≤ t.DeploymentPoints := by
  simp only [Server.Deploy]
  repeat' split
  all_goals first
    | exact h
    | (intro t ht
       rcases List.mem_or_eq_of_mem_set ht with h1 | h1
       · exact h t h1
       · subst h1
         have hs := (NewShip_ok _ _ _ _ _ _ _ (by assumption)).1
         simp only
         omega)

theorem Server.Mutiny_nonneg (pkg : GamePkg) (g : Game) (args : ClientCommand)
    (h : ∀ t ∈ g.Teams, 0 ≤ t.DeploymentPoints) :
    ∀ t ∈ (Server.Mutiny pkg g args).1.Teams, 0 ≤ t.DeploymentPoints := by
  rcases hF : args.Fields with _ | ⟨f0, _ | ⟨newName, rest⟩⟩
  · simpa [Server.Mutiny, hF] using h
  · simpa [Server.Mutiny, hF] using h
  · cases hp : GetPlayerById g args.PlayerId with
    | none => simpa [Server.Mutiny, hF, hp] using h
    | some ref =>
      obtain ⟨team, p, hteam, hat⟩ := GetPlayerById_playerAt g args.PlayerId ref hp
      have hpl : team.Players[ref.2]? = some p := by
        simp only [playerAt, hteam] at hat
        split at hat
        · cases hat
        · next q hq => cases hat; exact hq
      have hd : 0 ≤ team.DeploymentPoints := h team (List.getElem?_mem hteam)
      have hhalf : 0 ≤ team.DeploymentPoints.tdiv 2 := by
        rw [Int.tdiv_eq_ediv hd (by decide)]
        omega
      rw [(Server.Mutiny_Teams pkg g args f0 newName rest ref team p hF hp hteam hpl).1]
      intro t ht
      simp only [teamsAfterMutiny, List.mem_append, List.mem_singleton] at ht
      rcases ht with ht | ht
      · rcases List.mem_or_eq_of_mem_set ht with h1 | h1
        · exact h t h1
        · subst h1; exact hhalf
      · subst ht; exact hhalf

theorem tick_nonneg (g : Game) (h : ∀ t ∈ g.Teams, 0 ≤ t.DeploymentPoints)
    (hmax : ∀ t ∈ g.Teams, t.DeploymentPoints < maxInt) :
    ∀ t ∈ (tick g).Teams, 0 ≤ t.DeploymentPoints := by
  intro t ht
  simp only [tick, List.mem_map] at ht
  obtain ⟨t0, ht0, rfl⟩ := ht
  have h0 := h t0 ht0
  have h1 := hmax t0 ht0
  simp only [wrapInt]
  unfold maxInt at h1
  omega

theorem tick_adds_one (g : Game)
    (h : ∀ t ∈ g.Teams, -(2 ^ 63) ≤ t.DeploymentPoints ∧ t.DeploymentPoints < maxInt) :
    tick g =
      { g with Teams := g.Teams.map fun t => { t with DeploymentPoints := t.DeploymentPoints + 1 } } := by
  simp only [tick]
  congr 1
  apply List.map_congr_left
  intro t ht
  have h1 := h t ht
  unfold maxInt at h1
  have : wrapInt (t.DeploymentPoints + 1) = t.DeploymentPoints + 1 := by
    simp only [wrapInt]
    omega
  rw [this]

theorem wrapInt_iterate (x : Int) (N : Nat) (h1 : -(2 ^ 63) ≤ x) (h2 : x + N ≤ maxInt) :
    (fun y => wrapInt (y + 1))^[N] x = x + N := by
  induction N generalizing x with
  | zero => simp
  | succ n ih =>
    rw [Function.iterate_succ_apply]
    unfold maxInt at h2
    push_cast at h2
    have hw : wrapInt (x + 1) = x + 1 := by
      simp only [wrapInt]
      omega
    rw [hw, ih (x + 1) (by omega) (by unfold maxInt; omega)]
    push_cast
    omega

theorem tick_iterate (g : Game) (N : Nat) :
    tick^[N] g =
      { g with
        Teams := g.Teams.map fun t =>
          { t with DeploymentPoints := (fun x => wrapInt (x + 1))^[N] t.DeploymentPoints } } := by
  induction N generalizing g with
  | zero => simp
  | succ n ih =>
    rw [Function.iterate_succ_apply, ih (tick g)]
    simp only [tick, List.map_map]
    congr 1

/-! ## The claims -/

/-- C1: for a deploy command whose size `S` passes the argument validation
(`1 ≤ S ≤ 8`), whose location parses and whose orientation is `H` or `V`: if
the balance `b` of the caller's team is at least `S` and `NewShip` succeeds,
`Deploy` returns a response and the balance of the team becomes `b - S`; if
`b < S`, `Deploy` returns the error "not enough deployment points" and the game
(balance and ships included) is the one before the call. -/
theorem Server.Deploy_points (g : Game) (args : ClientCommand) (f0 f1 f2 f3 : String)
    (rest : List String) (location : Warships.Target) (S : Int) (o : Orientation)
    (ref : PlayerRef) (team : Team)
    (hfields : args.Fields = f0 :: f1 :: f2 :: f3 :: rest)
    (hloc : StringToTarget f1 = .ok location)
    (hsize : Atoi f2 = (S, false)) (hS : 1 ≤ S ∧ S ≤ 8)
    (hori : (f3 = "H" ∧ o = .HORIZONTAL) ∨ (f3 = "V" ∧ o = .VERTICAL))
    (hplayer : GetPlayerById g args.PlayerId = some ref)
    (hteam : g.Teams[ref.1]? = some team) :
    (S ≤ team.DeploymentPoints →
      ∀ team', NewShip g.ShipLimit g.BoardSize team (S.toNat % 256) o (ToCoordinate location)
          = .ok team' →
        (∃ resp, (Server.Deploy g args).2 = .ok resp) ∧
        ((Server.Deploy g args).1.Teams[ref.1]?).map (fun t => t.DeploymentPoints)
          = some (team.DeploymentPoints - S)) ∧
    (team.DeploymentPoints < S →
      Server.Deploy g args = (g, .error "not enough deployment points")) := by
  have hpo : parseOrientation f3 = some o := by
    rcases hori with ⟨h1, h2⟩ | ⟨h1, h2⟩ <;> subst h1 <;> subst h2 <;> decide
  have hlt : ref.1 < g.Teams.length := by
    by_contra hcon
    rw [List.getElem?_eq_none (by omega)] at hteam
    cases hteam
  have hS1 : ¬ (S < 1 ∨ S > 8) := by omega
  constructor
  · intro hb team' hship
    have hb' : team.DeploymentPoints ≥ S := hb
    obtain ⟨hdp, _, _⟩ := NewShip_ok _ _ _ _ _ _ _ hship
    simp only [Server.Deploy, hfields, hloc, hsize, hplayer, hteam, hpo, hS1, hb', hship,
      if_true, if_false, Bool.false_eq_true]
    refine ⟨⟨_, rfl⟩, ?_⟩
    simp [List.getElem?_set, hlt, hdp]
  · intro hb
    have hb' : ¬ team.DeploymentPoints ≥ S := by omega
    simp only [Server.Deploy, hfields, hloc, hsize, hplayer, hteam, hpo, hS1, hb',
      if_false, Bool.false_eq_true]

/-- Witness of C1: team Red holds exactly three points and deploys a ship of
size three; the balance left is zero. -/
theorem Server.Deploy_points_witness :
    (∃ resp, (Server.Deploy threePointGame ⟨"p1", ["deploy", "A1", "3", "H"]⟩).2 = .ok resp) ∧
    ((Server.Deploy threePointGame ⟨"p1", ["deploy", "A1", "3", "H"]⟩).1.Teams[0]?).map
      (fun t => t.DeploymentPoints) = some (3 - 3) :=
  (Server.Deploy_points threePointGame ⟨"p1", ["deploy", "A1", "3", "H"]⟩
    "deploy" "A1" "3" "H" [] { X := "A", Y := 1 } 3 .HORIZONTAL (0, 0)
    { teamRed with DeploymentPoints := 3 } rfl rfl (by decide) (by decide)
    (Or.inl ⟨rfl, rfl⟩) (by decide) rfl).1 (by decide) _ rfl

/-- C2: the game's admin password is "secret" and the shutdown command carries
the password "wrong", yet `Shutdown` ends the process with exit code 0. -/
theorem Server.Shutdown_exits_on_wrong_password :
    "wrong" ≠ demoGame.AdminPassword ∧
    Server.Shutdown demoGame ⟨"p1", ["shutdown", "wrong"]⟩ = (demoGame, .exit 0) := by
  decide

/-- C3: the game's ship limit is 16 and team Red holds 11 points, yet `Deploy`
rejects the size 9, which lies within `[1, ShipLimit]`, as an invalid size. -/
theorem Server.Deploy_rejects_size_below_limit :
    (1 ≤ 9 ∧ 9 ≤ demoGame.ShipLimit) ∧
    (9 : Int) ≤ teamRed.DeploymentPoints ∧
    Server.Deploy demoGame ⟨"p1", ["deploy", "A1", "9", "H"]⟩
      = (demoGame, .error deploySizeInvalid) := by
  decide

/-- C4: the team names of the demo game are pairwise distinct, and after the
command `mutiny Blue` of a player of team Red two teams carry the name `Blue`:
`Mutiny` assigns the name without the check `Rename` makes. -/
theorem Server.Mutiny_duplicates_team_name :
    (demoGame.Teams.map fun t => t.Name).Nodup ∧
    ¬ ((Server.Mutiny demoPkg demoGame ⟨"p1", ["mutiny", "Blue"]⟩).1.Teams.map
        fun t => t.Name).Nodup := by
  decide

/-- C5: for a player whose team holds `d ≥ 0` deployment points and a mutiny
command carrying a new team name, `Mutiny` succeeds; afterwards the team list
is the old one with the old team replaced and one team appended, the balance of
the old team and of the appended team is `⌊d / 2⌋`, the appended team carries
the given name and its only member is the seceding player with 10 points. -/
theorem Server.Mutiny_split (pkg : GamePkg) (g : Game) (args : ClientCommand)
    (f0 newName : String) (rest : List String) (ref : PlayerRef) (oldTeam : Team)
    (hfields : args.Fields = f0 :: newName :: rest)
    (hplayer : GetPlayerById g args.PlayerId = some ref)
    (hteam : g.Teams[ref.1]? = some oldTeam)
    (hd : 0 ≤ oldTeam.DeploymentPoints) :
    ∃ p old' new',
      playerAt g ref = some (oldTeam, p) ∧
      (∃ resp, (Server.Mutiny pkg g args).2 = .ok resp) ∧
      (Server.Mutiny pkg g args).1.Teams = g.Teams.set ref.1 old' ++ [new'] ∧
      old'.DeploymentPoints = ⌊(oldTeam.DeploymentPoints : ℚ) / 2⌋ ∧
      new'.DeploymentPoints = ⌊(oldTeam.DeploymentPoints : ℚ) / 2⌋ ∧
      new'.Name = newName ∧
      new'.Players = [{ p with Points := 10 }] := by
  obtain ⟨team, p, hteam', hat⟩ := GetPlayerById_playerAt g args.PlayerId ref hplayer
  rw [hteam] at hteam'
  cases hteam'
  have hp : oldTeam.Players[ref.2]? = some p := by
    simp only [playerAt, hteam] at hat
    split at hat
    · cases hat
    · next q hq => cases hat; exact hq
  obtain ⟨hT, hok⟩ := Server.Mutiny_Teams pkg g args f0 newName rest ref oldTeam p hfields
    hplayer hteam hp
  have hfloor : oldTeam.DeploymentPoints.tdiv 2 = ⌊(oldTeam.DeploymentPoints : ℚ) / 2⌋ := by
    rw [Int.tdiv_eq_ediv hd (by decide)]
    have := Rat.floor_intCast_div_natCast oldTeam.DeploymentPoints 2
    simpa using this.symm
  exact ⟨p, _, _, hat, hok, hT, hfloor, hfloor, rfl, rfl⟩

/-- Witness of C5: `ann` of team Red, which holds 11 points, secedes. -/
theorem Server.Mutiny_split_witness :
    ∃ p old' new',
      playerAt demoGame (0, 0) = some (teamRed, p) ∧
      (∃ resp, (Server.Mutiny demoPkg demoGame ⟨"p1", ["mutiny", "Green"]⟩).2 = .ok resp) ∧
      (Server.Mutiny demoPkg demoGame ⟨"p1", ["mutiny", "Green"]⟩).1.Teams
        = demoGame.Teams.set 0 old' ++ [new'] ∧
      old'.DeploymentPoints = ⌊((11 : Int) : ℚ) / 2⌋ ∧
      new'.DeploymentPoints = ⌊((11 : Int) : ℚ) / 2⌋ ∧
      new'.Name = "Green" ∧
      new'.Players = [{ p with Points := 10 }] :=
  Server.Mutiny_split demoPkg demoGame ⟨"p1", ["mutiny", "Green"]⟩ "mutiny" "Green" [] (0, 0)
    teamRed rfl (by decide) rfl (by decide)

/-- C6: whenever `Target`, `Deploy`, `Rename` or `Mutiny` returns an error, the
game after the call is the game before it (team names, balances, ship lists,
rosters, player points and hit streaks included). -/
theorem Server.error_leaves_game (pkg : GamePkg) (g : Game) (args : ClientCommand)
    (msg : String) :
    ((Server.Target pkg g args).1.2 = .error msg → (Server.Target pkg g args).1.1 = g) ∧
    ((Server.Deploy g args).2 = .error msg → (Server.Deploy g args).1 = g) ∧
    ((Server.Rename g args).2 = .error msg → (Server.Rename g args).1 = g) ∧
    ((Server.Mutiny pkg g args).2 = .error msg → (Server.Mutiny pkg g args).1 = g) := by
  refine ⟨fun h => ?_, fun h => ?_, fun h => ?_, fun h => ?_⟩
  · rcases Server.Target_ok_or_same pkg g args with ⟨g', resp, hok⟩ | hsame
    · rw [hok] at h; cases h
    · exact hsame
  · rcases Server.Deploy_ok_or_same g args with ⟨g', resp, hok⟩ | hsame
    · rw [hok] at h; cases h
    · exact hsame
  · rcases Server.Rename_ok_or_same g args with ⟨g', resp, hok⟩ | hsame
    · rw [hok] at h; cases h
    · exact hsame
  · rcases Server.Mutiny_ok_or_same pkg g args with ⟨g', resp, hok⟩ | hsame
    · rw [hok] at h; cases h
    · exact hsame

/-- Witness of C6: a target command without arguments, a deploy command of
size 9, a rename by a player who is not the leader and a mutiny without a name
are each answered with an error and leave the demo game as it was. -/
theorem Server.error_leaves_game_witness :
    (Server.Target demoPkg demoGame ⟨"p1", ["target"]⟩).1.1 = demoGame ∧
    (Server.Deploy demoGame ⟨"p1", ["deploy", "A1", "9", "H"]⟩).1 = demoGame ∧
    (Server.Rename demoGame ⟨"p1", ["rename", "Green"]⟩).1 = demoGame ∧
    (Server.Mutiny demoPkg demoGame ⟨"p1", ["mutiny"]⟩).1 = demoGame :=
  ⟨(Server.error_leaves_game demoPkg demoGame ⟨"p1", ["target"]⟩ targetUsage).1 (by decide),
    (Server.error_leaves_game demoPkg demoGame ⟨"p1", ["deploy", "A1", "9", "H"]⟩
      deploySizeInvalid).2.1 (by decide),
    (Server.error_leaves_game demoPkg demoGame ⟨"p1", ["rename", "Green"]⟩
      "you must be team leader to do this (player on your team with them most points)").2.2.1
      (by decide),
    (Server.error_leaves_game demoPkg demoGame ⟨"p1", ["mutiny"]⟩
      "not enough arguments to perform target command: mutiny <new_name>").2.2.2 (by decide)⟩

/-- C7: for a target command of a known caller, `Target` returns an error
without invoking `FireShot` whenever the team field is not a decimal integer
in `1..len(Teams)` (a missing or non-numeric field included), or the caller's
team has no ship, or the selected team is the caller's own, or no cell string
is accepted by `StringToTarget`, and the game is then the one before the call;
in every other case the index `n - 1` is in bounds and `FireShot` is invoked
exactly once, on the caller, the team at that index and the parsed cell: the
game after the call is the game before it with that team and the caller
replaced by what this one call of `FireShot` returns, the response is the
message of its shot result, and no other call of `FireShot` is logged. -/
theorem Server.Target_validation (pkg : GamePkg) (g : Game) (args : ClientCommand)
    (ref : PlayerRef) (ownTeam : Team)
    (hplayer : GetPlayerById g args.PlayerId = some ref)
    (hown : g.Teams[ref.1]? = some ownTeam)
    (hlen : (g.Teams.length : Int) < maxInt) :
    (((¬ ∃ f1 n, args.Fields[1]? = some f1 ∧ Atoi f1 = (n, false) ∧
          1 ≤ n ∧ n ≤ g.Teams.length) ∨
        ownTeam.Ships = [] ∨
        (∃ f1, args.Fields[1]? = some f1 ∧ ((Atoi f1).1 - 1).toNat = ref.1) ∨
        (¬ ∃ f2 t, args.Fields[2]? = some f2 ∧ StringToTarget f2 = .ok t)) →
      ∃ msg, Server.Target pkg g args = ((g, .error msg), [])) ∧
    (¬ ((¬ ∃ f1 n, args.Fields[1]? = some f1 ∧ Atoi f1 = (n, false) ∧
          1 ≤ n ∧ n ≤ g.Teams.length) ∨
        ownTeam.Ships = [] ∨
        (∃ f1, args.Fields[1]? = some f1 ∧ ((Atoi f1).1 - 1).toNat = ref.1) ∨
        (¬ ∃ f2 t, args.Fields[2]? = some f2 ∧ StringToTarget f2 = .ok t)) →
      ∃ f1 f2 n target team p, args.Fields[1]? = some f1 ∧ args.Fields[2]? = some f2 ∧
        Atoi f1 = (n, false) ∧ StringToTarget f2 = .ok target ∧
        (n - 1).toNat < g.Teams.length ∧ g.Teams[(n - 1).toNat]? = some team ∧
        playerAt g ref = some (ownTeam, p) ∧
        Server.Target pkg g args =
          (({ g with
              Teams := (g.Teams.set (n - 1).toNat (pkg.FireShot p team target).2.1).set ref.1
                { ownTeam with
                  Players := ownTeam.Players.set ref.2 (pkg.FireShot p team target).1 } },
            .ok (shotMessage (pkg.FireShot p team target).2.2
              (pkg.FireShot p team target).1.HitStreak)),
            [(n - 1).toNat])) := by
  have hshort : args.Fields[2]? = none →
      Server.Target pkg g args = ((g, .error targetUsage), []) := by
    intro h2
    simp only [Server.Target]
    split
    · next heq => rw [heq] at h2; simp at h2
    · rfl
  cases h2 : args.Fields[2]? with
  | none =>
    refine ⟨fun _ => ⟨_, hshort h2⟩, fun hn => ?_⟩
    exfalso
    apply hn
    right; right; right
    rintro ⟨f2, t, hf2, _⟩
    cases hf2
  | some f2 =>
    obtain ⟨f0, f1, rest, hfields⟩ : ∃ f0 f1 rest, args.Fields = f0 :: f1 :: f2 :: rest := by
      rcases hF : args.Fields with _ | ⟨a, _ | ⟨b, _ | ⟨c, r⟩⟩⟩ <;> rw [hF] at h2 <;>
        simp at h2
      exact ⟨a, b, r, by rw [h2]⟩
    have h1 : args.Fields[1]? = some f1 := by rw [hfields]; rfl
    rcases Server.Target_cases pkg g args f0 f1 f2 rest ref ownTeam hfields hplayer hown with
      ⟨herr, hwhy⟩ | ⟨hr, hs, ho, t, team, p, ht, hteam, hat, hok⟩
    · refine ⟨fun _ => herr, fun hn => ?_⟩
      exfalso
      apply hn
      rcases hwhy with hw | hw | hw | hw | ⟨e, hw⟩
      · left
        rintro ⟨f1', n, hf, ha, hn1, _⟩
        rw [h1] at hf; cases hf
        rw [ha] at hw
        simp only at hw
        omega
      · left
        rintro ⟨f1', n, hf, ha, _, hn2⟩
        rw [h1] at hf; cases hf
        rw [ha] at hw
        simp only at hw
        omega
      · exact Or.inr (Or.inl hw)
      · exact Or.inr (Or.inr (Or.inl ⟨f1, h1, hw⟩))
      · right; right; right
        rintro ⟨f2', t, hf, ht⟩
        cases hf
        rw [hw] at ht
        cases ht
    · have hflag : (Atoi f1).2 = false := by
        cases hb : (Atoi f1).2 with
        | false => rfl
        | true =>
          exfalso
          have hv := Atoi_err_value f1 hb
          unfold maxInt at hlen
          omega
      have hA : Atoi f1 = ((Atoi f1).1, false) := by rw [← hflag]
      refine ⟨fun hbad => ?_,
        fun _ => ⟨f1, f2, (Atoi f1).1, t, team, p, h1, rfl, hA, ht, by omega, hteam, hat, hok⟩⟩
      exfalso
      rcases hbad with hw | hw | ⟨f1', hf, hw⟩ | hw
      · exact hw ⟨f1, _, h1, hA, hr.1, hr.2⟩
      · exact hs hw
      · rw [h1] at hf; cases hf
        exact ho hw
      · exact hw ⟨f2, t, rfl, ht⟩

/-- Witness of C7: `ann` of team Red fires at team 2. Without a ship of her
own the command is answered with an error and no shot; with a ship the shot is
fired once, at the team with index 1. -/
theorem Server.Target_validation_witness :
    (∃ msg, Server.Target demoPkg demoGame ⟨"p1", ["target", "2", "A1"]⟩
      = ((demoGame, .error msg), [])) ∧
    (∃ f1 f2 n target team p,
      (["target", "2", "A1"] : List String)[1]? = some f1 ∧
      (["target", "2", "A1"] : List String)[2]? = some f2 ∧
      Atoi f1 = (n, false) ∧ StringToTarget f2 = .ok target ∧
      (n - 1).toNat < armedGame.Teams.length ∧ armedGame.Teams[(n - 1).toNat]? = some team ∧
      playerAt armedGame (0, 0) = some (armedGame.Teams[0], p) ∧
      Server.Target demoPkg armedGame ⟨"p1", ["target", "2", "A1"]⟩ =
        (({ armedGame with
            Teams := (armedGame.Teams.set (n - 1).toNat
                (demoPkg.FireShot p team target).2.1).set 0
              { armedGame.Teams[0] with
                Players := (armedGame.Teams[0]).Players.set 0
                  (demoPkg.FireShot p team target).1 } },
          .ok (shotMessage (demoPkg.FireShot p team target).2.2
            (demoPkg.FireShot p team target).1.HitStreak)),
          [(n - 1).toNat])) :=
  ⟨(Server.Target_validation demoPkg demoGame ⟨"p1", ["target", "2", "A1"]⟩ (0, 0) teamRed
      (by decide) rfl (by decide)).1 (Or.inr (Or.inl rfl)),
    (Server.Target_validation demoPkg armedGame ⟨"p1", ["target", "2", "A1"]⟩ (0, 0)
      armedGame.Teams[0] (by decide) rfl (by decide)).2 (by
        rintro (h | h | ⟨f1, hf, h⟩ | h)
        · exact h ⟨"2", 2, rfl, by decide, by decide, by decide⟩
        · cases h
        · cases hf
          revert h
          decide
        · exact h ⟨"A1", _, rfl, rfl⟩)⟩


/-- C8: for a radar command of a known caller, `Radar` returns an error when
the team argument is missing, is not a decimal integer, lies outside
`1..len(Teams)` or selects the caller's own team; in every other case the
index `n - 1` is in bounds and the response is the `PrintMap` rendering of
`GetRadar` for the caller's team and the team at that index. -/
theorem Server.Radar_validation (pkg : GamePkg) (g : Game) (args : ClientCommand)
    (ref : PlayerRef)
    (hplayer : GetPlayerById g args.PlayerId = some ref) :
    ((args.Fields[1]? = none ∨
        (∃ f1, args.Fields[1]? = some f1 ∧ (Atoi f1).2 = true) ∨
        (∃ f1, args.Fields[1]? = some f1 ∧
          ((Atoi f1).1 < 1 ∨ (Atoi f1).1 > g.Teams.length)) ∨
        (∃ f1, args.Fields[1]? = some f1 ∧ ((Atoi f1).1 - 1).toNat = ref.1)) →
      ∃ msg, Server.Radar pkg g args = (g, .error msg)) ∧
    (¬ (args.Fields[1]? = none ∨
        (∃ f1, args.Fields[1]? = some f1 ∧ (Atoi f1).2 = true) ∨
        (∃ f1, args.Fields[1]? = some f1 ∧
          ((Atoi f1).1 < 1 ∨ (Atoi f1).1 > g.Teams.length)) ∨
        (∃ f1, args.Fields[1]? = some f1 ∧ ((Atoi f1).1 - 1).toNat = ref.1)) →
      ∃ f1 n, args.Fields[1]? = some f1 ∧ Atoi f1 = (n, false) ∧
        (n - 1).toNat < g.Teams.length ∧
        Server.Radar pkg g args
          = (g, .ok (PrintMap g.BoardSize (pkg.GetRadar g ref.1 (n - 1).toNat)))) := by
  cases h1 : args.Fields[1]? with
  | none =>
    have hshort : Server.Radar pkg g args
        = (g, .error "must target radar at a specific team: radar <team#>") := by
      simp only [Server.Radar]
      split
      · next heq => rw [heq] at h1; simp at h1
      · rfl
    exact ⟨fun _ => ⟨_, hshort⟩, fun hn => absurd (Or.inl rfl) hn⟩
  | some f1 =>
    obtain ⟨f0, rest, hfields⟩ : ∃ f0 rest, args.Fields = f0 :: f1 :: rest := by
      rcases hF : args.Fields with _ | ⟨a, _ | ⟨b, r⟩⟩ <;> rw [hF] at h1 <;> simp at h1
      exact ⟨a, r, by rw [h1]⟩
    by_cases he : (Atoi f1).2 = true
    · have hr : Server.Radar pkg g args = (g, .error "team selection invalid") := by
        simp only [Server.Radar, hfields, he, if_true]
      exact ⟨fun _ => ⟨_, hr⟩, fun hn => absurd (Or.inr (Or.inl ⟨f1, rfl, he⟩)) hn⟩
    · have he' : (Atoi f1).2 = false := by simpa using he
      by_cases hrange : (Atoi f1).1 < 1 ∨ (Atoi f1).1 > g.Teams.length
      · have hr : Server.Radar pkg g args = (g, .error "team selection out of range") := by
          simp only [Server.Radar, hfields, he', hrange, if_true, if_false, Bool.false_eq_true]
        exact ⟨fun _ => ⟨_, hr⟩,
          fun hn => absurd (Or.inr (Or.inr (Or.inl ⟨f1, rfl, hrange⟩))) hn⟩
      · have hidx : ((Atoi f1).1 - 1).toNat < g.Teams.length := by omega
        by_cases ho : ((Atoi f1).1 - 1).toNat = ref.1
        · have hlt : ref.1 < g.Teams.length := ho ▸ hidx
          have hr : Server.Radar pkg g args
              = (g, .error "you cannot target your own team") := by
            simp only [Server.Radar, hfields, he', hrange, if_false, Bool.false_eq_true,
              List.getElem?_eq_getElem hidx, hplayer, ho, if_true,
              List.getElem?_eq_getElem hlt]
          exact ⟨fun _ => ⟨_, hr⟩,
            fun hn => absurd (Or.inr (Or.inr (Or.inr ⟨f1, rfl, ho⟩))) hn⟩
        · have hr : Server.Radar pkg g args
              = (g, .ok (PrintMap g.BoardSize
                  (pkg.GetRadar g ref.1 ((Atoi f1).1 - 1).toNat))) := by
            simp only [Server.Radar, hfields, he', hrange, if_false, Bool.false_eq_true,
              List.getElem?_eq_getElem hidx, hplayer, ho]
          have hA : Atoi f1 = ((Atoi f1).1, false) := by rw [← he']
          refine ⟨fun hbad => ?_, fun _ => ⟨f1, _, rfl, hA, hidx, hr⟩⟩
          exfalso
          rcases hbad with hw | ⟨f, hf, hw⟩ | ⟨f, hf, hw⟩ | ⟨f, hf, hw⟩
          · cases hw
          · cases hf; exact he hw
          · cases hf; exact hrange hw
          · cases hf; exact ho hw

/-- Witness of C8: `ann` of team Red points the radar at team 2. -/
theorem Server.Radar_validation_witness :
    ∃ f1 n, (["radar", "2"] : List String)[1]? = some f1 ∧ Atoi f1 = (n, false) ∧
      (n - 1).toNat < demoGame.Teams.length ∧
      Server.Radar demoPkg demoGame ⟨"p1", ["radar", "2"]⟩
        = (demoGame, .ok (PrintMap demoGame.BoardSize
            (demoPkg.GetRadar demoGame 0 (n - 1).toNat))) :=
  (Server.Radar_validation demoPkg demoGame ⟨"p1", ["radar", "2"]⟩ (0, 0) (by decide)).2 (by
    rintro (h | ⟨f1, hf, h⟩ | ⟨f1, hf, h⟩ | ⟨f1, hf, h⟩)
    · cases h
    · cases hf; revert h; decide
    · cases hf; revert h; decide
    · cases hf; revert h; decide)

/-- C9: for a known caller, `Rename` sets the name of the caller's team to the
requested name exactly when the caller is the top player of the team, a new
name is supplied and no team of the game carries that name; in every other case
it returns an error and leaves the game as it was; in all cases the teams other
than the caller's are unchanged. -/
theorem Server.Rename_leader_unique (g : Game) (args : ClientCommand) (ref : PlayerRef)
    (team : Team)
    (hplayer : GetPlayerById g args.PlayerId = some ref)
    (hteam : g.Teams[ref.1]? = some team) :
    (∀ newName, TopPlayer team = some ref.2 → args.Fields[1]? = some newName →
      (∀ t ∈ g.Teams, t.Name ≠ newName) →
        (∃ resp, (Server.Rename g args).2 = .ok resp) ∧
        (Server.Rename g args).1.Teams = g.Teams.set ref.1 { team with Name := newName }) ∧
    (¬ (TopPlayer team = some ref.2 ∧
        ∃ newName, args.Fields[1]? = some newName ∧ ∀ t ∈ g.Teams, t.Name ≠ newName) →
      ∃ msg, Server.Rename g args = (g, .error msg)) ∧
    (∀ i, i ≠ ref.1 → (Server.Rename g args).1.Teams[i]? = g.Teams[i]?) := by
  have hfield : ∀ newName, args.Fields[1]? = some newName →
      ∃ f0 rest, args.Fields = f0 :: newName :: rest := by
    intro newName h1
    rcases hF : args.Fields with _ | ⟨a, _ | ⟨b, r⟩⟩ <;> rw [hF] at h1 <;> simp at h1
    exact ⟨a, r, by rw [h1]⟩
  have hunique : ∀ newName, UniqueTeamName g newName = true ↔
      ∀ t ∈ g.Teams, t.Name ≠ newName := by
    intro newName
    simp [UniqueTeamName]
  have hyes : ∀ newName, TopPlayer team = some ref.2 → args.Fields[1]? = some newName →
      (∀ t ∈ g.Teams, t.Name ≠ newName) →
        (∃ resp, (Server.Rename g args).2 = .ok resp) ∧
        (Server.Rename g args).1.Teams = g.Teams.set ref.1 { team with Name := newName } := by
    intro newName htop h1 hu
    obtain ⟨f0, rest, hfields⟩ := hfield newName h1
    have hu' := (hunique newName).mpr hu
    simp only [Server.Rename, hplayer, hteam, htop, hfields, hu', ne_eq, not_true_eq_false,
      if_false, if_true, modifyTeam_Teams]
    exact ⟨⟨_, rfl⟩, modify_eq_set_of_getElem? _ _ _ _ hteam⟩
  have hno : ¬ (TopPlayer team = some ref.2 ∧
        ∃ newName, args.Fields[1]? = some newName ∧ ∀ t ∈ g.Teams, t.Name ≠ newName) →
      ∃ msg, Server.Rename g args = (g, .error msg) := by
    intro hn
    by_cases htop : TopPlayer team = some ref.2
    · cases h1 : args.Fields[1]? with
      | none =>
        refine ⟨"not enough arguments to perform target command: rename <new_name>", ?_⟩
        simp only [Server.Rename, hplayer, hteam, htop, ne_eq, not_true_eq_false, if_false]
        split
        · next heq => rw [heq] at h1; simp at h1
        · rfl
      | some newName =>
        obtain ⟨f0, rest, hfields⟩ := hfield newName h1
        have hu : UniqueTeamName g newName = false := by
          cases hb : UniqueTeamName g newName with
          | false => rfl
          | true => exact absurd ⟨htop, newName, h1, (hunique newName).mp hb⟩ hn
        exact ⟨"team name already taken", by
          simp only [Server.Rename, hplayer, hteam, htop, hfields, hu, ne_eq,
            not_true_eq_false, if_false, Bool.false_eq_true]⟩
    · exact ⟨"you must be team leader to do this (player on your team with them most points)",
        by simp only [Server.Rename, hplayer, hteam, htop, ne_eq, not_false_eq_true, if_true]⟩
  refine ⟨hyes, hno, ?_⟩
  intro i hi
  by_cases hc : TopPlayer team = some ref.2 ∧
      ∃ newName, args.Fields[1]? = some newName ∧ ∀ t ∈ g.Teams, t.Name ≠ newName
  · obtain ⟨htop, newName, h1, hu⟩ := hc
    rw [(hyes newName htop h1 hu).2, List.getElem?_set_ne (Ne.symm hi)]
  · obtain ⟨msg, hmsg⟩ := hno hc
    rw [hmsg]

/-- Witness of C9: `bob`, the top player of team Red, renames the team to
`Green`. -/
theorem Server.Rename_leader_unique_witness :
    (∃ resp, (Server.Rename demoGame ⟨"p2", ["rename", "Green"]⟩).2 = .ok resp) ∧
    (Server.Rename demoGame ⟨"p2", ["rename", "Green"]⟩).1.Teams
      = demoGame.Teams.set 0 { teamRed with Name := "Green" } :=
  (Server.Rename_leader_unique demoGame ⟨"p2", ["rename", "Green"]⟩ (0, 1) teamRed
    (by decide) rfl).1 "Green" (by decide) rfl (by decide)

/-- Counterexample to C10 as stated: every balance of `richGame` is at least 0,
one round of the scheduler loop is a step, and after it team Red holds a
negative balance (`DeploymentPoints++` wraps around at the largest `int`). -/
theorem tick_overflow_negative :
    (∀ t ∈ richGame.Teams, 0 ≤ t.DeploymentPoints) ∧
    Relation.ReflTransGen (Step demoPkg) richGame (tick richGame) ∧
    ∃ t ∈ (tick richGame).Teams, t.DeploymentPoints < 0 :=
  ⟨by decide, Relation.ReflTransGen.single (Step.tick richGame), by decide⟩

/-- C10, amended: in every game reachable from a game whose balances are all
at least 0 by deploy commands, mutiny commands and rounds of the scheduler
loop, each round taken while every balance is below the largest `int`, every
balance (those of teams created by `Mutiny` included) is at least 0. -/
theorem balances_nonneg (pkg : GamePkg) (g g' : Game)
    (h : ∀ t ∈ g.Teams, 0 ≤ t.DeploymentPoints)
    (hreach : Relation.ReflTransGen (GuardedStep pkg) g g') :
    ∀ t ∈ g'.Teams, 0 ≤ t.DeploymentPoints := by
  induction hreach with
  | refl => exact h
  | tail _ hstep ih =>
    cases hstep with
    | deploy args => exact Server.Deploy_nonneg _ args ih
    | mutiny args => exact Server.Mutiny_nonneg pkg _ args ih
    | tick hmax => exact tick_nonneg _ ih hmax

/-- Witness of C10: after a deploy command, a mutiny and a round of the
scheduler loop from the demo game all balances are at least 0. -/
theorem balances_nonneg_witness :
    ((tick (Server.Mutiny demoPkg
        (Server.Deploy demoGame ⟨"p1", ["deploy", "A1", "3", "H"]⟩).1
        ⟨"p2", ["mutiny", "Green"]⟩).1).Teams.all
      fun t => decide (0 ≤ t.DeploymentPoints)) = true :=
  List.all_eq_true.mpr fun t ht => decide_eq_true
    (balances_nonneg demoPkg demoGame _ (by decide)
      (((Relation.ReflTransGen.single (GuardedStep.deploy demoGame _)).tail
        (GuardedStep.mutiny _ _)).tail (GuardedStep.tick _ (by decide))) t ht)

/-- Counterexample to C11 as stated: one round of the scheduler loop on
`richGame`, where team Red holds the largest `int`, does not leave every
balance one above the balance before. -/
theorem tick_overflow_not_plus_one :
    (tick richGame).Teams.map (fun t => t.DeploymentPoints)
      ≠ richGame.Teams.map (fun t => t.DeploymentPoints + 1) := by
  decide

/-- C11, amended: `N` rounds of the scheduler loop with no command in between
change nothing of the game but the balances and nothing of a team but its
balance, and every team whose balance is a Go `int` that stays within the range
of `int` after `N` more points holds exactly `N` more, whatever the balances
of the other teams (one round adds exactly 1 to every team below the largest
`int`). -/
theorem ticks_add (g : Game) (N : Nat) :
    { (tick^[N] g) with Teams := g.Teams } = g ∧
    (tick^[N] g).Teams.length = g.Teams.length ∧
    ∀ (i : Nat) (t : Team), g.Teams[i]? = some t →
      ∃ t' : Team, (tick^[N] g).Teams[i]? = some t' ∧
        { t' with DeploymentPoints := t.DeploymentPoints } = t ∧
        (-(2 ^ 63) ≤ t.DeploymentPoints → t.DeploymentPoints + N ≤ maxInt →
          t'.DeploymentPoints = t.DeploymentPoints + N) := by
  rw [tick_iterate]
  refine ⟨rfl, by simp, ?_⟩
  intro i t ht
  refine ⟨{ t with DeploymentPoints := (fun x => wrapInt (x + 1))^[N] t.DeploymentPoints },
    by simp [ht], rfl, ?_⟩
  intro h1 h2
  exact wrapInt_iterate t.DeploymentPoints N h1 h2

/-- Witness of C11: three rounds of the scheduler loop on `richGame`; team
Blue, which holds 0 points, holds 3 afterwards although team Red sits at the
largest `int`. -/
theorem ticks_add_witness :
    ∃ t' : Team, (tick^[3] richGame).Teams[1]? = some t' ∧
      { t' with DeploymentPoints := teamBlue.DeploymentPoints } = teamBlue ∧
      t'.DeploymentPoints = teamBlue.DeploymentPoints + (3 : Nat) :=
  let ⟨t', h1, h2, h3⟩ := (ticks_add richGame 3).2.2 1 teamBlue rfl
  ⟨t', h1, h2, h3 (by decide) (by decide)⟩


theorem join_cons_append (init : String) (l : List String) :
    l.foldl (fun r s => r ++ s) init = init ++ String.join l := by
  induction l generalizing init with
  | nil => simp [String.join]
  | cons x xs ih =>
    simp only [List.foldl_cons, String.join]
    rw [ih, ih ("" ++ x), String.append_assoc]
    simp

theorem foldl_append_eq_join {α : Type} (f : α → String) (l : List α) (init : String) :
    l.foldl (fun out x => out ++ f x) init = init ++ String.join (l.map f) := by
  rw [← join_cons_append, List.foldl_map]

/-- Layout of the map for a board size from 1 to 255: the indent, the `n`
column labels, and `n` rows of a row label and `n` glyphs. -/
theorem PrintMap_layout (n : Nat) (icon : Nat → Nat → String) (h1 : 1 ≤ n) (h2 : n ≤ 255) :
    PrintMap n icon =
      "    " ++ String.join ((List.range n).map fun x => padRight 2 (ConvertToBase26 x)) ++ "\n"
        ++ String.join ((List.range n).map fun y =>
            padLeft 3 (toString y) ++ " "
              ++ String.join ((List.range n).map fun x => icon x y) ++ "\n") := by
  have hn : (n + 255) % 256 + 1 = n := by omega
  have hrow : (fun (out : String) (y : Nat) =>
        (List.range n).foldl (fun o x => o ++ icon x y) (out ++ (padLeft 3 (toString y) ++ " "))
          ++ "\n")
      = fun out y => out ++ (padLeft 3 (toString y) ++ " "
          ++ String.join ((List.range n).map fun x => icon x y) ++ "\n") := by
    funext out y
    rw [foldl_append_eq_join]
    simp only [String.append_assoc]
  simp only [PrintMap, hn, hrow]
  rw [foldl_append_eq_join, foldl_append_eq_join]

/-- C12: for the board size 0 the header of `PrintMap` does not consist of the
indent and 0 labels: the bound `int(boardSize - 1)` of the header loop is
computed on a `uint8` and is 255, so the header holds the 256 labels of
0..255, whatever the icon function. -/
theorem PrintMap_zero_header (icon : Nat → Nat → String) :
    PrintMap 0 icon =
      "    " ++ String.join ((List.range 256).map fun x => padRight 2 (ConvertToBase26 x))
        ++ "\n" ∧
    PrintMap 0 icon ≠ "    \n" := by
  constructor
  · simp only [PrintMap]
    rw [foldl_append_eq_join]
    rfl
  · have h : PrintMap 0 icon = PrintMap 0 (fun _ _ => "") := rfl
    rw [h]
    set_option maxRecDepth 100000 in decide

theorem findInRoster_hide (ps : List Player) (id : String) :
    findInRoster (ps.map hidePoints) id = findInRoster ps id := by
  induction ps with
  | nil => rfl
  | cons p ps ih => simp [findInRoster, ih, hidePoints]

theorem findInTeams_hideFrom (own : Nat) (ts : List Team) (i k : Nat) (id : String) :
    findInTeams (hideFrom own i ts) k id = findInTeams ts k id := by
  induction ts generalizing i k with
  | nil => rfl
  | cons t ts ih =>
    simp only [hideFrom, findInTeams]
    have hr : findInRoster (if i = own then t else hideTeamPoints t).Players id
        = findInRoster t.Players id := by
      split
      · rfl
      · exact findInRoster_hide t.Players id
    rw [hr, ih]

theorem GetPlayerById_hide (own : Nat) (g : Game) (id : String) :
    GetPlayerById (hideOtherPoints own g) id = GetPlayerById g id :=
  findInTeams_hideFrom own g.Teams 0 0 id

theorem length_hideFrom (own : Nat) (ts : List Team) (i : Nat) :
    (hideFrom own i ts).length = ts.length := by
  induction ts generalizing i with
  | nil => rfl
  | cons t ts ih => simp [hideFrom, ih]

theorem getElem?_hideFrom (own : Nat) (ts : List Team) (i j : Nat) :
    (hideFrom own i ts)[j]? =
      (ts[j]?).map fun t => if i + j = own then t else hideTeamPoints t := by
  induction ts generalizing i j with
  | nil => simp [hideFrom]
  | cons t ts ih =>
    cases j with
    | zero => simp [hideFrom]
    | succ j =>
      simp only [hideFrom, List.getElem?_cons_succ, ih]
      have : i + 1 + j = i + (j + 1) := by omega
      rw [this]

theorem foldl_lines_hide (ps : List Player) (c : Prop) [Decidable c] (hc : ¬ c) (out : String) :
    (ps.map hidePoints).foldl
        (fun o player =>
          if c then o ++ playerLine (toString player.Points) player.Username
          else o ++ playerLine "?" player.Username) out
      = ps.foldl
        (fun o player =>
          if c then o ++ playerLine (toString player.Points) player.Username
          else o ++ playerLine "?" player.Username) out := by
  rw [List.foldl_map]
  simp [hc, hidePoints]

theorem foldl_teams_hide (own : Nat) (ts : List Team) (i : Nat) (out : String) :
    ((hideFrom own i ts).enumFrom i).foldl
        (fun out (nt : Nat × Team) =>
          nt.2.Players.foldl
            (fun o player =>
              if nt.1 = own then o ++ playerLine (toString player.Points) player.Username
              else o ++ playerLine "?" player.Username)
            (out ++ ("Team " ++ toString (nt.1 + 1) ++ ": " ++ nt.2.Name ++ "\n"))) out
      = (ts.enumFrom i).foldl
        (fun out (nt : Nat × Team) =>
          nt.2.Players.foldl
            (fun o player =>
              if nt.1 = own then o ++ playerLine (toString player.Points) player.Username
              else o ++ playerLine "?" player.Username)
            (out ++ ("Team " ++ toString (nt.1 + 1) ++ ": " ++ nt.2.Name ++ "\n"))) out := by
  induction ts generalizing i out with
  | nil => rfl
  | cons t ts ih =>
    simp only [hideFrom, List.enumFrom_cons, List.foldl_cons]
    rw [ih]
    congr 1
    by_cases h : i = own
    · simp [h]
    · simp only [h, if_false, hideTeamPoints]
      rw [List.foldl_map]
      rfl

theorem Server.Players_hide (g : Game) (args : ClientCommand) (ref : PlayerRef)
    (hplayer : GetPlayerById g args.PlayerId = some ref) :
    (Server.Players (hideOtherPoints ref.1 g) args).2 = (Server.Players g args).2 := by
  have hg : GetPlayerById (hideOtherPoints ref.1 g) args.PlayerId = some ref := by
    rw [GetPlayerById_hide, hplayer]
  have hlen : (hideOtherPoints ref.1 g).Teams.length = g.Teams.length :=
    length_hideFrom ref.1 g.Teams 0
  have hall : (hideFrom ref.1 0 g.Teams).enum.foldl
        (fun out (nt : Nat × Team) =>
          nt.2.Players.foldl
            (fun o player =>
              if nt.1 = ref.1 then o ++ playerLine (toString player.Points) player.Username
              else o ++ playerLine "?" player.Username)
            (out ++ ("Team " ++ toString (nt.1 + 1) ++ ": " ++ nt.2.Name ++ "\n"))) ""
      = g.Teams.enum.foldl
        (fun out (nt : Nat × Team) =>
          nt.2.Players.foldl
            (fun o player =>
              if nt.1 = ref.1 then o ++ playerLine (toString player.Points) player.Username
              else o ++ playerLine "?" player.Username)
            (out ++ ("Team " ++ toString (nt.1 + 1) ++ ": " ++ nt.2.Name ++ "\n"))) "" :=
    foldl_teams_hide ref.1 g.Teams 0 ""
  rcases hF : args.Fields with _ | ⟨f0, _ | ⟨f1, rest⟩⟩
  · simp only [Server.Players, hg, hplayer, hF]
    simp only [hideOtherPoints, hall]
  · simp only [Server.Players, hg, hplayer, hF]
    simp only [hideOtherPoints, hall]
  · simp only [Server.Players, hg, hplayer, hF, hlen]
    split
    · rfl
    · split
      · rfl
      · have hget := getElem?_hideFrom ref.1 g.Teams 0 ((Atoi f1).1 - 1).toNat
        simp only [Nat.zero_add] at hget
        simp only [hideOtherPoints, hget]
        cases hteam : g.Teams[((Atoi f1).1 - 1).toNat]? with
        | none => rfl
        | some team =>
          simp only [Option.map_some']
          by_cases ho : ((Atoi f1).1 - 1).toNat = ref.1
          · simp [ho]
          · simp only [ho, if_false, hideTeamPoints]
            rw [List.foldl_map]
            rfl

theorem line_ite (c : Prop) [Decidable c] (out a b : String) :
    (if c then out ++ a else out ++ b) = out ++ (if c then a else b) := by
  split <;> rfl

/-- C13: for a known caller and two games that agree once the points of the
players on teams other than the caller's are blanked, `Players` returns the
same response, with a team number and without one. With a team number the
response lists the players of the selected team, without one the players of
every team, each with the points if the team is the caller's and with `?`
otherwise. -/
theorem Server.Players_shows_own_points_only (g1 g2 : Game) (args : ClientCommand)
    (ref : PlayerRef)
    (hplayer : GetPlayerById g1 args.PlayerId = some ref)
    (hsame : hideOtherPoints ref.1 g1 = hideOtherPoints ref.1 g2) :
    (Server.Players g1 args).2 = (Server.Players g2 args).2 ∧
    (∀ f0 f1 rest n team, args.Fields = f0 :: f1 :: rest → Atoi f1 = (n, false) →
      1 ≤ n → n ≤ g1.Teams.length → g1.Teams[(n - 1).toNat]? = some team →
      (Server.Players g1 args).2 = .ok
        ("\n" ++ team.Name ++ " [ " ++ toString team.NumPlayers ++ " player(s) ]\n"
          ++ playerLine "Points" "Username"
          ++ String.join (team.Players.map fun p =>
              if (n - 1).toNat = ref.1 then playerLine (toString p.Points) p.Username
              else playerLine "?" p.Username))) ∧
    (args.Fields.length ≤ 1 →
      (Server.Players g1 args).2 = .ok
        (String.join (g1.Teams.enum.map fun nt =>
          "Team " ++ toString (nt.1 + 1) ++ ": " ++ nt.2.Name ++ "\n"
            ++ String.join (nt.2.Players.map fun p =>
                if nt.1 = ref.1 then playerLine (toString p.Points) p.Username
                else playerLine "?" p.Username)))) := by
  have hplayer2 : GetPlayerById g2 args.PlayerId = some ref := by
    rw [← GetPlayerById_hide ref.1 g2, ← hsame, GetPlayerById_hide, hplayer]
  refine ⟨?_, ?_, ?_⟩
  · rw [← Server.Players_hide g1 args ref hplayer, ← Server.Players_hide g2 args ref hplayer2,
      hsame]
  · intro f0 f1 rest n team hF hA h1 h2 hteam
    have hr : ¬ (n < 1 ∨ n > g1.Teams.length) := by omega
    simp only [Server.Players, hplayer, hF, hA, hr, hteam, if_false, Bool.false_eq_true,
      line_ite, foldl_append_eq_join, String.empty_append]
  · intro hlen
    have hbody : (fun (out : String) (nt : Nat × Team) =>
          nt.2.Players.foldl
            (fun o player =>
              if nt.1 = ref.1 then o ++ playerLine (toString player.Points) player.Username
              else o ++ playerLine "?" player.Username)
            (out ++ ("Team " ++ toString (nt.1 + 1) ++ ": " ++ nt.2.Name ++ "\n")))
        = fun out nt => out ++ ("Team " ++ toString (nt.1 + 1) ++ ": " ++ nt.2.Name ++ "\n"
            ++ String.join (nt.2.Players.map fun p =>
                if nt.1 = ref.1 then playerLine (toString p.Points) p.Username
                else playerLine "?" p.Username)) := by
      funext out nt
      simp only [line_ite, foldl_append_eq_join, String.append_assoc]
    rcases hF : args.Fields with _ | ⟨f0, _ | ⟨f1, rest⟩⟩
    · simp only [Server.Players, hplayer, hF, hbody, foldl_append_eq_join, String.empty_append]
    · simp only [Server.Players, hplayer, hF, hbody, foldl_append_eq_join, String.empty_append]
    · rw [hF] at hlen
      simp at hlen

/-- Witness of C13: `ann` of team Red asks for the player list in two games
that differ in the points of `carl` of team Blue. -/
theorem Server.Players_shows_own_points_only_witness :
    (Server.Players rivalGame ⟨"p1", ["players"]⟩).2
      = (Server.Players rivalGameRich ⟨"p1", ["players"]⟩).2 :=
  (Server.Players_shows_own_points_only rivalGame rivalGameRich ⟨"p1", ["players"]⟩ (0, 0)
    (by decide) (by decide)).1
end Warships
